import Mathlib

/-!
Shallow embedding of the `browzer_web` HTTP framework (repository `AxewBoTX/browzer`),
crate `src/browzer_web`.  Rust strings are modelled as Lean `String`; Rust `HashMap`s
are modelled as association lists (`AMap`) with overwrite-on-insert semantics, and the
implementation-defined `HashMap` iteration order of the dynamic-route scan becomes the
list order, over which the theorems quantify.  Byte lengths of UTF-8 strings are
computed by `utf8Len`.  Boxed Rust closures (`RouteHandler`, middleware) are modelled
as plain Lean functions.
-/

/-- Association list with string keys, modelling `std::collections::HashMap`
up to iteration order. -/
abbrev AMap (α : Type) := List (String × α)

/-- Lookup in an association list: the value at the first matching key,
modelling `HashMap::get`. -/
def alookup {α : Type} : AMap α → String → Option α
  | [], _ => none
  | (k, v) :: rest, key => if k = key then some v else alookup rest key

/-- Insert with overwrite, modelling `HashMap::insert`: replaces the value at an
existing key in place, otherwise appends the new pair. -/
def ainsert {α : Type} : AMap α → String → α → AMap α
  | [], key, v => [(key, v)]
  | (k, w) :: rest, key, v =>
      if k = key then (k, v) :: rest else (k, w) :: ainsert rest key v

/-- Split a character list at every character satisfying `p`, keeping empty pieces,
modelling Rust `str::split`: the result is always nonempty, and `split` of the empty
string is `[[]]`. -/
def splitBy (p : Char → Bool) : List Char → List (List Char)
  | [] => [[]]
  | c :: cs =>
      match splitBy p cs with
      | [] => [[]]
      | piece :: rest => if p c then [] :: piece :: rest else (c :: piece) :: rest

/-- Split a string on a single character, modelling Rust `str::split(char)`. -/
def splitChar (s : String) (c : Char) : List String :=
  (splitBy (fun x => x = c) s.data).map String.mk

/-- The 25 code points of Unicode `White_Space`, modelling Rust
`char::is_whitespace`. -/
def rustIsWhitespace (c : Char) : Bool :=
  (0x9 ≤ c.toNat ∧ c.toNat ≤ 0xD) ∨ c.toNat = 0x20 ∨ c.toNat = 0x85 ∨
  c.toNat = 0xA0 ∨ c.toNat = 0x1680 ∨ (0x2000 ≤ c.toNat ∧ c.toNat ≤ 0x200A) ∨
  c.toNat = 0x2028 ∨ c.toNat = 0x2029 ∨ c.toNat = 0x202F ∨ c.toNat = 0x205F ∨
  c.toNat = 0x3000

/-- Trim Unicode whitespace from both ends, modelling Rust `str::trim`. -/
def rustTrim (s : String) : String :=
  String.mk (((s.data.dropWhile rustIsWhitespace).reverse.dropWhile rustIsWhitespace).reverse)

/-- Split on Unicode whitespace discarding empty pieces, modelling Rust
`str::split_whitespace`. -/
def splitWhitespaceRust (s : String) : List String :=
  ((splitBy rustIsWhitespace s.data).filter (fun l => l ≠ [])).map String.mk

/-- Number of bytes of the UTF-8 encoding of one character. -/
def charSize (c : Char) : Nat :=
  if c.toNat < 0x80 then 1
  else if c.toNat < 0x800 then 2
  else if c.toNat < 0x10000 then 3
  else 4

/-- UTF-8 byte length of a character list, modelling Rust `str::len`. -/
def utf8Len (l : List Char) : Nat := l.foldr (fun c n => charSize c + n) 0

/-- Replace every occurrence of `/?` by `?`, left to right without rescanning,
modelling `str::replace("/?", "?")` for this fixed pattern. -/
def collapseSlashQ : List Char → List Char
  | '/' :: '?' :: rest => '?' :: collapseSlashQ rest
  | c :: rest => c :: collapseSlashQ rest
  | [] => []

/-- Rust `str::splitn(2, ":")`: at most two pieces, split at the first colon. -/
def splitn2Colon (s : String) : List String :=
  match splitChar s ':' with
  | [] => [s]
  | [x] => [x]
  | x :: xs => [x, String.intercalate ":" xs]

/-- Rust `str::splitn(2, "=")`: at most two pieces, split at the first equals sign. -/
def splitn2Eq (s : String) : List String :=
  match splitChar s '=' with
  | [] => [s]
  | [x] => [x]
  | x :: xs => [x, String.intercalate "=" xs]

/-- Rust `str::parse::<usize>()` on a decimal literal: an optional leading `+`
followed by at least one ASCII digit (machine-width overflow is not modelled). -/
def parseUsizeRust (s : String) : Option Nat :=
  let l := s.data
  let l2 := match l with
    | '+' :: t => t
    | _ => l
  if l2 ≠ [] ∧ l2.all Char.isDigit then
    some (l2.foldl (fun n c => n * 10 + (c.toNat - 48)) 0)
  else none

/-- HTTP methods recognised by the framework (`utils::HttpMethod`). -/
inductive HttpMethod
  | GET
  | POST
  | PATCH
  | DELETE
deriving DecidableEq

/-- Method name string, modelling `HttpMethod::to_string`. -/
def HttpMethod.to_string : HttpMethod → String
  | .GET => "GET"
  | .POST => "POST"
  | .PATCH => "PATCH"
  | .DELETE => "DELETE"

/-- Status codes supported by the framework (`utils::HttpStatusCode`). -/
inductive HttpStatusCode
  | OK
  | Created
  | Accepted
  | NoContent
  | MovedPermanently
  | Found
  | SeeOther
  | NotModified
  | BadRequest
  | Unauthorized
  | Forbidden
  | NotFound
  | MethodNotAllowed
  | InternalServerError
  | NotImplemented
  | BadGateway
  | ServiceUnavailable
deriving DecidableEq

/-- Reason phrase and numeric code, modelling `HttpStatusCode::code`. -/
def HttpStatusCode.code : HttpStatusCode → String × Nat
  | .OK => ("OK", 200)
  | .Created => ("Created", 201)
  | .Accepted => ("Accepted", 202)
  | .NoContent => ("NoContent", 204)
  | .MovedPermanently => ("Moved Permanently", 301)
  | .Found => ("Found", 302)
  | .SeeOther => ("See Other", 303)
  | .NotModified => ("Not Modified", 304)
  | .BadRequest => ("Bad Request", 400)
  | .Unauthorized => ("Unauthorized", 401)
  | .Forbidden => ("Forbidden", 403)
  | .NotFound => ("Not Found", 404)
  | .MethodNotAllowed => ("Method Not Allowed", 405)
  | .InternalServerError => ("Internal Server Error", 500)
  | .NotImplemented => ("Not Implemented", 501)
  | .BadGateway => ("Bad Gateway", 502)
  | .ServiceUnavailable => ("Service Unavailable", 503)

/-- Modelled from the spec: the `utils::Cookie` record is absent from the sources
(only its uses in `request.rs` and `response.rs` are present).  Per spec §3 a
response cookie carries name, value, optional expiry instant, optional path,
optional domain, optional max-age, a secure flag and an http-only flag; the expiry
instant is represented here by its formatted RFC1123-style rendering. -/
structure Cookie where
  name : String
  value : String
  expires : Option String
  path : Option String
  domain : Option String
  max_age : Option Int
  secure : Bool
  http_only : Bool
deriving DecidableEq

/-- Modelled from the spec: `Cookie::new` as used by the request parser, which per
spec §4.1 stores the trimmed name/value pieces of the `Cookie` header with no
further attributes. -/
def Cookie.new (name value : String) : Cookie :=
  { name := rustTrim name, value := rustTrim value, expires := none, path := none,
    domain := none, max_age := none, secure := false, http_only := false }

/-- An HTTP request (`request::Request`). -/
structure Request where
  method : HttpMethod
  path : String
  version : String
  headers : AMap String
  body : Option String
  cookies : AMap Cookie
deriving DecidableEq

/-- The `Default` instance of `Request`. -/
def Request.default : Request :=
  { method := .GET, path := "/", version := "HTTP/1.1", headers := [], body := none,
    cookies := [] }

/-- An HTTP response (`response::Response`). -/
structure Response where
  status_code : HttpStatusCode
  headers : AMap String
  body : String
  cookies : AMap Cookie
deriving DecidableEq

/-- The `Default` instance of `Response`. -/
def Response.default : Response :=
  { status_code := .OK, headers := [], body := "", cookies := [] }

/-- Constructor `Response::new`. -/
def Response.new (status_code : HttpStatusCode) (body : String) : Response :=
  { status_code := status_code, headers := [], body := body, cookies := [] }

/-- Per-request bundle (`context::Context`). -/
structure Context where
  request : Request
  response : Response
  params : AMap String
  query_params : AMap String

/-- Constructor `Context::new`. -/
def Context.new (request : Request) : Context :=
  { request := request, response := Response.default, params := [], query_params := [] }

/-- A route handler: the boxed closure wrapped by `router::RouteHandler`. -/
abbrev RouteHandler := Context → Response

/-- The route table: path pattern to method-name to handler, modelling the nested
`HashMap` of `WebRouter` with iteration order made explicit as list order. -/
abbrev Routes := AMap (AMap RouteHandler)

/-- The router (`router::WebRouter`, as it stands in `src/browzer_web/src/router.rs`:
a bare route table). -/
structure WebRouter where
  routes : Routes

/-- Constructor `WebRouter::new`. -/
def WebRouter.new : WebRouter := { routes := [] }

/-- The `entry(path).or_insert_with(HashMap::new).insert(method.to_string(), handler)`
pattern of `WebRouter::add`. -/
def entryInsert (rs : Routes) (path : String) (method : String) (h : RouteHandler) :
    Routes :=
  match rs with
  | [] => [(path, [(method, h)])]
  | (p, m) :: rest =>
      if p = path then (p, ainsert m method h) :: rest
      else (p, m) :: entryInsert rest path method h

/-- Route registration, modelling `WebRouter::add`. -/
def WebRouter.add (router : WebRouter) (path : String) (method : HttpMethod)
    (handler : RouteHandler) : WebRouter :=
  { routes := entryInsert router.routes path method.to_string handler }

/-- Whether a path segment begins with `:`, modelling `str::starts_with(':')`. -/
def startsWithColon (s : String) : Bool :=
  match s.data with
  | ':' :: _ => true
  | _ => false

/-- Drop the first character, modelling the byte slice `&s[1..]` applied after a
one-byte `:`. -/
def strDropOne (s : String) : String := String.mk (s.data.drop 1)

/-- Segment-wise matching loop of `WebRouter::match_dynamic_route`: iterates over the
zipped `(request_path_part, route_path_part)` pairs, binding capture segments and
rejecting on a mismatching literal segment. -/
def matchLoop : List (String × String) → AMap String → Option (AMap String)
  | [], params => some params
  | (request_path_part, route_path_part) :: rest, params =>
      if startsWithColon route_path_part then
        matchLoop rest (ainsert params (strDropOne route_path_part) request_path_part)
      else if request_path_part ≠ route_path_part then none
      else matchLoop rest params

/-- Dynamic route matching, modelling `WebRouter::match_dynamic_route`: the request
path is stripped of its query suffix (`split('?')[0]`), both paths are split on `/`,
segment counts must agree, and the segments are compared pairwise. -/
def WebRouter.match_dynamic_route (request_path route_path : String) :
    Option (AMap String) :=
  let request_path_parts := splitChar ((splitChar request_path '?').headD "") '/'
  let route_path_parts := splitChar route_path '/'
  if route_path_parts.length ≠ request_path_parts.length then none
  else matchLoop (request_path_parts.zip route_path_parts) []

/-- The query-string loop inside `WebRouter::handle_request` (router.rs lines
204-225): split the query on `&`, take the first two `=`-fragments of each piece as
key and value, abort on an empty key, and otherwise insert the pair. -/
def collectQueryParams : List String → AMap String → Option (AMap String)
  | [], acc => some acc
  | part :: rest, acc =>
      let key_value := splitChar part '='
      let key := key_value.headD ""
      let value := (key_value.drop 1).headD ""
      if key = "" then none
      else collectQueryParams rest (ainsert acc key value)

/-- The body of the dynamic-match success arm of `WebRouter::handle_request`
(router.rs lines 200-233): parse and validate query parameters from the request
path, answering 400 Bad Request on an empty key, then run the handler on a fresh
context carrying the captured params and the query map. -/
def runDynamicHandler (route_handler : RouteHandler) (params : AMap String)
    (request : Request) : Response :=
  match (splitChar request.path '?').drop 1 |>.head? with
  | some query =>
      match collectQueryParams (splitChar query '&') [] with
      | none =>
          Response.new HttpStatusCode.BadRequest
            (HttpStatusCode.BadRequest.code.fst)
      | some query_params =>
          route_handler
            { request := request, response := Response.default, params := params,
              query_params := query_params }
  | none =>
      route_handler
        { request := request, response := Response.default, params := params,
          query_params := [] }

/-- The dynamic scan of `WebRouter::handle_request` (the `for (route_path,
method_map) in &self.routes` loop): first pattern that matches and carries the
request method wins; a matching pattern without the method is skipped; exhaustion
answers 404 Not Found. -/
def dynamicLoop : Routes → Request → Response
  | [], _ =>
      Response.new HttpStatusCode.NotFound (HttpStatusCode.NotFound.code.fst)
  | (route_path, method_map) :: rest, request =>
      match WebRouter.match_dynamic_route request.path route_path with
      | some params =>
          match alookup method_map request.method.to_string with
          | some route_handler => runDynamicHandler route_handler params request
          | none => dynamicLoop rest request
      | none => dynamicLoop rest request

/-- Request dispatch, modelling `WebRouter::handle_request`: exact lookup of the raw
request path first (405 Method Not Allowed on a method miss there), otherwise the
dynamic scan. -/
def WebRouter.handle_request (router : WebRouter) (request : Request) : Response :=
  match alookup router.routes request.path with
  | some path_map =>
      match alookup path_map request.method.to_string with
      | some route_handler => route_handler (Context.new request)
      | none =>
          Response.new HttpStatusCode.MethodNotAllowed
            (HttpStatusCode.MethodNotAllowed.code.fst)
  | none => dynamicLoop router.routes request

/-- One serialized header line of `Response::to_string`. -/
def headerLine (kv : String × String) : String := kv.1 ++ ": " ++ kv.2 ++ "\r\n"

/-- One serialized `Set-Cookie` line of `Response::to_string`, mirroring the
attribute-by-attribute appends of response.rs lines 160-189. -/
def cookieLine (cookie : Cookie) : String :=
  let s0 := cookie.name ++ "=" ++ cookie.value
  let s1 := match cookie.path with
    | some path => s0 ++ "; Path=" ++ path
    | none => s0
  let s2 := match cookie.domain with
    | some domain => s1 ++ "; Domain=" ++ domain
    | none => s1
  let s3 := match cookie.expires with
    | some formatted_time => s2 ++ "; Expires=" ++ formatted_time
    | none => s2
  let s4 := match cookie.max_age with
    | some max_age => s3 ++ "; Max-Age=" ++ toString max_age
    | none => s3
  let s5 := if cookie.secure then s4 ++ "; Secure" else s4
  let s6 := if cookie.http_only then s5 ++ "; HttpOnly" else s5
  "Set-Cookie: " ++ s6 ++ "\r\n"

/-- Serialization, modelling `Response::to_string`: status line and a
`Content-Length` computed from the body byte length, then the header lines, then
the `Set-Cookie` lines, a blank line and the body. -/
def Response.to_string (r : Response) : String :=
  let status_code := r.status_code.code
  let response :=
    "HTTP/1.1 " ++ toString status_code.snd ++ " " ++ status_code.fst ++
      "\r\nContent-Length: " ++ toString (utf8Len r.body.data) ++ "\r\n"
  let response := r.headers.foldl (fun acc kv => acc ++ headerLine kv) response
  let response := r.cookies.foldl (fun acc kv => acc ++ cookieLine kv.snd) response
  response ++ "\r\n" ++ r.body

/-- Router-side errors (`error::WebRouterError`). -/
inductive WebRouterError
  | PathFormatError (msg : String)
deriving DecidableEq

/-- Path normalization, modelling `utils::format_path_by_slashes`: an empty or
whitespace-only path is first replaced by `/`; the last character is then looked up
at index `len() - 1` of the character iterator, where `len()` is the UTF-8 byte
length; a trailing `/` is popped; finally every `/?` is collapsed into `?`. -/
def format_path_by_slashes (path : String) : Except WebRouterError String :=
  let path1 := if (rustTrim path).length = 0 ∧ rustTrim path = "" then "/" else path
  match path1.data.get? (utf8Len path1.data - 1) with
  | some last_char =>
      let path2 := if last_char = '/' then String.mk path1.data.dropLast else path1
      Except.ok (String.mk (collapseSlashQ path2.data))
  | none =>
      Except.error (WebRouterError.PathFormatError "Failed to format path by slashes")

/-- Request-parsing errors (`error::RequestError`). -/
inductive RequestError
  | InvalidRequestLineError (line : String)
  | EmptyRequestError
deriving DecidableEq

/-- Server-side errors (`error::WebServerError`); the conversion applied to a failed
`Content-Length` parse is modelled by the `ParseIntError` variant. -/
inductive WebServerError
  | StreamFlushError (msg : String)
  | IOError (msg : String)
  | RequestParseError (e : RequestError)
  | InternalServerError (msg : String)
  | ParseIntError (msg : String)
deriving DecidableEq

/-- The cookie-header loop of `Request::new` (request.rs lines 125-133). -/
def parseCookies (cookie_string : String) : AMap Cookie :=
  (splitChar cookie_string ';').foldl
    (fun cookies string_cookie =>
      match splitn2Eq string_cookie with
      | [name, value] => ainsert cookies (rustTrim name) (Cookie.new name value)
      | _ => cookies)
    []

/-- The header-scanning loop of `Request::new` (request.rs lines 98-109): consume
lines until one is blank after trimming, splitting each at the first colon; returns
the headers and, when a terminator line was found, the lines after it. -/
def headersScan : List String → AMap String → AMap String × Option (List String)
  | [], headers => (headers, none)
  | curr_line :: rest, headers =>
      if rustTrim curr_line = "" then (headers, some rest)
      else
        match (splitn2Colon curr_line).map rustTrim with
        | [k, v] => headersScan rest (ainsert headers k v)
        | _ => headersScan rest headers

/-- Request parsing from the line vector, modelling `Request::new`: request line
split on whitespace into at least three tokens, header lines up to the first
blank-after-trim line, body joined from the lines after that terminator (present
only when that suffix is nonempty), cookies from the `Cookie` header. -/
def Request.new (input : List String) : Except RequestError Request :=
  match input.head? with
  | none => Except.error RequestError.EmptyRequestError
  | some request_line =>
      let parts := splitWhitespaceRust request_line
      if parts.length ≥ 3 then
        let method := match parts.getD 0 "" with
          | "GET" => HttpMethod.GET
          | "POST" => HttpMethod.POST
          | "PATCH" => HttpMethod.PATCH
          | "DELETE" => HttpMethod.DELETE
          | _ => HttpMethod.GET
        let path := parts.getD 1 ""
        let version := parts.getD 2 ""
        let scan := headersScan (input.drop 1) []
        let headers := scan.fst
        let body := match scan.snd with
          | some rem => if rem.isEmpty then none else some (String.intercalate "\n" rem)
          | none => none
        let cookies := match alookup headers "Cookie" with
          | some cookie_string => parseCookies cookie_string
          | none => []
        Except.ok
          { method := method, path := path, version := version, headers := headers,
            body := body, cookies := cookies }
      else Except.error (RequestError.InvalidRequestLineError request_line)

/-- The line delivered by `BufRead::lines` when a `\n` terminated it: the
accumulated characters (held in reverse) with a trailing `\r` stripped. -/
def lineFromAcc (acc : List Char) : String :=
  let raw := acc.reverse
  String.mk (if raw.getLast? = some '\r' then raw.dropLast else raw)

/-- The `Content-Length` recording step of the header loop (lib.rs lines 538-546):
a line carrying the `Content-Length: ` prefix has its remainder trimmed and parsed,
a parse failure aborting the connection; any other line leaves the recorded length
unchanged. -/
def clStep (line : String) (content_length : Nat) : Except WebServerError Nat :=
  if "Content-Length: ".data.isPrefixOf line.data then
    match parseUsizeRust (rustTrim (String.mk (line.data.drop 16))) with
    | some safe_c_l => Except.ok safe_c_l
    | none => Except.error (WebServerError.ParseIntError "invalid digit found in string")
  else Except.ok content_length

/-- The header-reading loop of `WebServer::handle_request` (lib.rs lines 533-552):
read lines (accumulating characters up to each `\n`; a final line at end of stream
keeps any trailing `\r`), record the value of every `Content-Length: `-prefixed
line, push each line, and stop after pushing the first empty line; returns the
pushed vector, the recorded length and the unread stream. -/
def readHeaderLines : List Char → List Char → List String → Nat →
    Except WebServerError (List String × Nat × List Char)
  | [], acc, request_vector, content_length =>
      match acc with
      | [] => Except.ok (request_vector, content_length, [])
      | _ :: _ =>
          let line := String.mk acc.reverse
          match clStep line content_length with
          | Except.error e => Except.error e
          | Except.ok cl => Except.ok (request_vector ++ [line], cl, [])
  | c :: cs, acc, request_vector, content_length =>
      if c = '\n' then
        let line := lineFromAcc acc
        match clStep line content_length with
        | Except.error e => Except.error e
        | Except.ok cl =>
            if line = "" then Except.ok (request_vector ++ [line], cl, cs)
            else readHeaderLines cs [] (request_vector ++ [line]) cl
      else readHeaderLines cs (c :: acc) request_vector content_length

/-- The request-vector builder of `WebServer::handle_request` (lib.rs lines
529-562): after the header loop, when a positive content length was recorded, read
exactly that many bytes (failing on a short stream, as `read_exact` does) and push
them as one final element. -/
def readRequestVector (s : List Char) :
    Except WebServerError (List String × Nat × List Char) :=
  match readHeaderLines s [] [] 0 with
  | Except.error e => Except.error e
  | Except.ok (request_vector, content_length, rest) =>
      if 0 < content_length then
        if content_length ≤ rest.length then
          Except.ok (request_vector ++ [String.mk (rest.take content_length)],
            content_length, rest.drop content_length)
        else Except.error (WebServerError.IOError "failed to fill whole buffer")
      else Except.ok (request_vector, content_length, rest)

/-- The full connection-side parse of `WebServer::handle_request`: build the request
vector from the stream, then parse it with `Request::new`.  The stream is modelled
as a character list (one character per byte; lossy UTF-8 decoding of the body bytes
becomes the identity). -/
def serverParse (s : List Char) : Except WebServerError Request :=
  match readRequestVector s with
  | Except.error e => Except.error e
  | Except.ok (request_vector, _, _) =>
      match Request.new request_vector with
      | Except.ok request => Except.ok request
      | Except.error e => Except.error (WebServerError.RequestParseError e)

/-- Pool errors (`error::ThreadPoolError`). -/
inductive ThreadPoolError
  | ReceiverLockError (msg : String)
  | ReceiveError (msg : String)
  | SendError (msg : String)
deriving DecidableEq

/-- Model of the mpsc job channel seen from the send half: the queued jobs and
whether any worker still holds the receive end. -/
structure JobChannel (α : Type) where
  receiverAlive : Bool
  queue : List α
deriving DecidableEq

/-- Model of `mpsc::Sender::send`: enqueues when the receive end is alive, errors
when every receiver has been dropped. -/
def JobChannel.send {α : Type} (ch : JobChannel α) (job : α) :
    Except ThreadPoolError (JobChannel α) :=
  if ch.receiverAlive then
    Except.ok { ch with queue := ch.queue ++ [job] }
  else Except.error (ThreadPoolError.SendError "sending on a closed channel")

/-- Model of `ThreadPool`: the optional send half (`sender: Option<mpsc::Sender<Job>>`),
carrying the channel state when present. -/
structure ThreadPool (α : Type) where
  sender : Option (JobChannel α)
deriving DecidableEq

/-- Job submission, modelling `ThreadPool::execute` (thread_pool.rs lines 148-159):
a missing sender is propagated with `?` as a `SendError`; the result of the actual
channel send is bound to `_` and discarded, and `Ok(())` is returned.  The returned
state records the queue effect of a successful send. -/
def ThreadPool.execute {α : Type} (pool : ThreadPool α) (f : α) :
    Except ThreadPoolError (ThreadPool α) :=
  match pool.sender with
  | none => Except.error (ThreadPoolError.SendError "Sender is not innitialized")
  | some ch =>
      Except.ok
        { sender := some (match ch.send f with
            | Except.ok ch2 => ch2
            | Except.error _ => ch) }

/-- The first action of `Drop for ThreadPool` (thread_pool.rs line 165): the send
half is taken and dropped. -/
def ThreadPool.dropSender {α : Type} (_pool : ThreadPool α) : ThreadPool α :=
  { sender := none }

/-- Modelled from the spec: the middleware chain.  `WebServer::middleware` (lib.rs
lines 159-172) registers middleware through `WebRouter::add_middleware`, but the
middleware list and its application are absent from `src/browzer_web/src/router.rs`;
per spec §3/§4.3 the list is an ordered sequence of `Context → Context` functions
applied strictly in registration order to every request before route matching. -/
def applyMiddlewares (mws : List (Context → Context)) (ctx : Context) : Context :=
  mws.foldl (fun c mw => mw c) ctx

/-- Modelled from the spec: the dynamic-match success arm operating on the
middleware-processed context instead of a freshly built one. -/
def runDynamicHandlerCtx (route_handler : RouteHandler) (params : AMap String)
    (ctx : Context) : Response :=
  match (splitChar ctx.request.path '?').drop 1 |>.head? with
  | some query =>
      match collectQueryParams (splitChar query '&') [] with
      | none =>
          Response.new HttpStatusCode.BadRequest (HttpStatusCode.BadRequest.code.fst)
      | some query_params =>
          route_handler { ctx with params := params, query_params := query_params }
  | none => route_handler { ctx with params := params }

/-- Modelled from the spec: the dynamic scan operating on the middleware-processed
context. -/
def dynamicLoopCtx : Routes → Context → Response
  | [], _ =>
      Response.new HttpStatusCode.NotFound (HttpStatusCode.NotFound.code.fst)
  | (route_path, method_map) :: rest, ctx =>
      match WebRouter.match_dynamic_route ctx.request.path route_path with
      | some params =>
          match alookup method_map ctx.request.method.to_string with
          | some route_handler => runDynamicHandlerCtx route_handler params ctx
          | none => dynamicLoopCtx rest ctx
      | none => dynamicLoopCtx rest ctx

/-- Modelled from the spec: route matching and dispatch on an already-built
context, the step that per spec §4.3 runs after the middleware chain. -/
def dispatchContext (routes : Routes) (ctx : Context) : Response :=
  match alookup routes ctx.request.path with
  | some path_map =>
      match alookup path_map ctx.request.method.to_string with
      | some route_handler => route_handler ctx
      | none =>
          Response.new HttpStatusCode.MethodNotAllowed
            (HttpStatusCode.MethodNotAllowed.code.fst)
  | none => dynamicLoopCtx routes ctx

/-- Modelled from the spec: a router carrying both the route table and the ordered
middleware list (the `WebRouter` that `lib.rs` programs against). -/
structure WebRouterMW where
  routes : Routes
  middlewares : List (Context → Context)

/-- Modelled from the spec: request handling with middleware — a fresh context is
built from the request, the full middleware chain is applied to it in registration
order, and only then is the route matched and dispatched. -/
def WebRouterMW.handle_request_mw (router : WebRouterMW) (request : Request) :
    Response :=
  dispatchContext router.routes (applyMiddlewares router.middlewares (Context.new request))

/-- A probe handler rendering the query-parameter map of its context as
`k=v` pairs joined by `&`; used to observe the context a handler receives. -/
def probeQP : RouteHandler := fun c =>
  Response.new HttpStatusCode.OK
    (String.intercalate "&" (c.query_params.map (fun kv => kv.1 ++ "=" ++ kv.2)))

/-- A router with the single pattern `/search` carrying only a GET handler. -/
def searchRouter : WebRouter := { routes := [("/search", [("GET", probeQP)])] }

/-- A GET request at a given path with all other fields defaulted. -/
def reqGET (p : String) : Request := { Request.default with path := p }

/-- Lookup after overwrite-insert at the same key. -/
theorem alookup_ainsert_self {α : Type} (m : AMap α) (k : String) (v : α) :
    alookup (ainsert m k v) k = some v := by
  induction m with
  | nil => simp [ainsert, alookup]
  | cons hd rest ih =>
      obtain ⟨k0, w⟩ := hd
      by_cases h : k0 = k
      · simp [ainsert, h, alookup]
      · simp [ainsert, h, alookup, ih]

/-- Lookup after overwrite-insert at a different key. -/
theorem alookup_ainsert_ne {α : Type} (m : AMap α) (k k2 : String) (v : α)
    (h : k ≠ k2) : alookup (ainsert m k v) k2 = alookup m k2 := by
  induction m with
  | nil => simp [ainsert, alookup, h]
  | cons hd rest ih =>
      obtain ⟨k0, w⟩ := hd
      by_cases h0 : k0 = k
      · subst h0
        simp [ainsert, alookup, h]
      · simp [ainsert, h0, alookup, ih]

/-- A lookup misses an appended map exactly when it misses both halves. -/
theorem alookup_append_none_iff {α : Type} (a b : AMap α) (k : String) :
    alookup (a ++ b) k = none ↔ alookup a k = none ∧ alookup b k = none := by
  induction a with
  | nil => simp [alookup]
  | cons hd rest ih =>
      obtain ⟨k0, w⟩ := hd
      by_cases h : k0 = k
      · simp [alookup, h]
      · simp [alookup, h, ih]

/-- The matching loop succeeds exactly when every pair is a capture or a literal
match. -/
theorem matchLoop_isSome_iff (l : List (String × String)) (params : AMap String) :
    (matchLoop l params).isSome = true ↔
      ∀ pr ∈ l, startsWithColon pr.2 = true ∨ pr.1 = pr.2 := by
  induction l generalizing params with
  | nil => simp [matchLoop]
  | cons hd t ih =>
      obtain ⟨r, p⟩ := hd
      by_cases hc : startsWithColon p = true
      · simp [matchLoop, hc, ih]
      · by_cases hr : r = p
        · simp [matchLoop, hc, hr, ih]
        · simp [matchLoop, hc, hr]

/-- Pairs that never capture a name leave its binding unchanged. -/
theorem matchLoop_alookup_stable (l : List (String × String)) (p0 params : AMap String)
    (name : String) (hok : matchLoop l p0 = some params)
    (h : ∀ pr ∈ l, ¬(startsWithColon pr.2 = true ∧ strDropOne pr.2 = name)) :
    alookup params name = alookup p0 name := by
  induction l generalizing p0 with
  | nil =>
      simp only [matchLoop, Option.some.injEq] at hok
      rw [hok]
  | cons hd t ih =>
      obtain ⟨r, p⟩ := hd
      by_cases hc : startsWithColon p = true
      · have hname : strDropOne p ≠ name := by
          intro heq
          exact h (r, p) (List.mem_cons_self _ _) ⟨hc, heq⟩
        simp only [matchLoop, hc, if_true] at hok
        rw [ih _ hok (fun pr hpr => h pr (List.mem_cons_of_mem _ hpr))]
        exact alookup_ainsert_ne _ _ _ _ hname
      · by_cases hr : r = p
        · simp only [matchLoop, hc, if_false, hr, ne_eq, not_true_eq_false] at hok
          exact ih _ hok (fun pr hpr => h pr (List.mem_cons_of_mem _ hpr))
        · simp [matchLoop, hc, hr] at hok

/-- A captured name whose captures all bind the same request segment looks up to
that segment after a successful match. -/
theorem matchLoop_alookup_capture (l : List (String × String)) (p0 params : AMap String)
    (r p : String) (hok : matchLoop l p0 = some params) (hmem : (r, p) ∈ l)
    (hc : startsWithColon p = true)
    (huniq : ∀ pr ∈ l, startsWithColon pr.2 = true →
      strDropOne pr.2 = strDropOne p → pr.1 = r) :
    alookup params (strDropOne p) = some r := by
  induction l generalizing p0 r p with
  | nil => cases hmem
  | cons hd t ih =>
      obtain ⟨r0, q⟩ := hd
      by_cases hcq : startsWithColon q = true
      · simp only [matchLoop, hcq, if_true] at hok
        by_cases hex : ∃ pr ∈ t, startsWithColon pr.2 = true ∧
            strDropOne pr.2 = strDropOne p
        · obtain ⟨pr, hprmem, hprc, hprdrop⟩ := hex
          have hval : pr.1 = r :=
            huniq pr (List.mem_cons_of_mem _ hprmem) hprc hprdrop
          have hmem2 : (r, pr.2) ∈ t := by
            rw [← hval]
            exact hprmem
          have := ih _ _ _ hok hmem2 hprc (fun pr2 hpr2 hc2 hd2 =>
            huniq pr2 (List.mem_cons_of_mem _ hpr2) hc2 (hd2.trans hprdrop))
          rw [← hprdrop]
          exact this
        · push_neg at hex
          rcases List.mem_cons.mp hmem with heq | hmemt
          · have hr0 : r0 = r := (Prod.mk.injEq _ _ _ _).mp heq.symm |>.1
            have hq : q = p := (Prod.mk.injEq _ _ _ _).mp heq.symm |>.2
            subst hr0
            subst hq
            rw [matchLoop_alookup_stable t _ _ _ hok
              (fun pr hpr hcap => hex pr hpr hcap.1 hcap.2)]
            exact alookup_ainsert_self _ _ _
          · exact absurd (hex (r, p) hmemt hc) (by simp)
      · simp only [matchLoop, hcq, if_false] at hok
        by_cases hr0 : r0 = q
        · simp only [hr0, ne_eq, not_true_eq_false, if_false] at hok
          rcases List.mem_cons.mp hmem with heq | hmemt
          · have : q = p := (Prod.mk.injEq _ _ _ _).mp heq.symm |>.2
            rw [← this] at hc
            exact absurd hc (by simp [hcq])
          · exact ih _ _ _ hok hmemt hc (fun pr2 hpr2 hc2 hd2 =>
              huniq pr2 (List.mem_cons_of_mem _ hpr2) hc2 hd2)
        · simp [hr0] at hok

/-- C1: for every router and request, the full middleware chain — every registered
middleware, in registration order, each seeing its predecessor's mutation — is
applied to the context before route matching, and middleware cannot short-circuit
the chain or prevent dispatch.  (The middleware store is modelled from the spec;
see `applyMiddlewares`.) -/
theorem C1_middleware_chain :
    (∀ (A B : Context → Context) (mws : List (Context → Context)) (ctx : Context),
        applyMiddlewares (A :: B :: mws) ctx = applyMiddlewares mws (B (A ctx))) ∧
    (∀ (mws1 mws2 : List (Context → Context)) (ctx : Context),
        applyMiddlewares (mws1 ++ mws2) ctx =
          applyMiddlewares mws2 (applyMiddlewares mws1 ctx)) ∧
    (∀ (router : WebRouterMW) (request : Request),
        router.handle_request_mw request =
          dispatchContext router.routes
            (applyMiddlewares router.middlewares (Context.new request))) := by
  refine ⟨fun A B mws ctx => rfl, fun mws1 mws2 ctx => ?_, fun router request => rfl⟩
  simp [applyMiddlewares, List.foldl_append]

/-- C2: with equal segment counts, `match_dynamic_route` succeeds exactly when
every non-capture pattern segment equals the corresponding request segment, and a
successful match binds each `:name` capture to the corresponding request segment;
in particular `/users/:id` matches `/users/42` capturing `id = 42`,
`/users/:id/posts/:pid` matches `/users/7/posts/3` capturing `id = 7, pid = 3`,
and `/users/:id` does not match `/users/42/extra`. -/
theorem C2_dynamic_route_matching :
    (∀ (request_path route_path : String),
      (splitChar route_path '/').length =
          (splitChar ((splitChar request_path '?').headD "") '/').length →
      (((WebRouter.match_dynamic_route request_path route_path).isSome = true ↔
          ∀ pr ∈ (splitChar ((splitChar request_path '?').headD "") '/').zip
              (splitChar route_path '/'),
            startsWithColon pr.2 = true ∨ pr.1 = pr.2) ∧
        ∀ params, WebRouter.match_dynamic_route request_path route_path = some params →
          ∀ r p, (r, p) ∈ (splitChar ((splitChar request_path '?').headD "") '/').zip
              (splitChar route_path '/') →
            startsWithColon p = true →
            (∀ pr ∈ (splitChar ((splitChar request_path '?').headD "") '/').zip
                (splitChar route_path '/'),
              startsWithColon pr.2 = true → strDropOne pr.2 = strDropOne p → pr.1 = r) →
            alookup params (strDropOne p) = some r)) ∧
    WebRouter.match_dynamic_route "/users/42" "/users/:id" = some [("id", "42")] ∧
    WebRouter.match_dynamic_route "/users/7/posts/3" "/users/:id/posts/:pid" =
      some [("id", "7"), ("pid", "3")] ∧
    WebRouter.match_dynamic_route "/users/42/extra" "/users/:id" = none := by
  refine ⟨?_, by decide, by decide, by decide⟩
  intro request_path route_path hlen
  have hne : ¬((splitChar route_path '/').length ≠
      (splitChar ((splitChar request_path '?').headD "") '/').length) := by
    simp [hlen]
  constructor
  · rw [WebRouter.match_dynamic_route]
    simp only [if_neg hne]
    exact matchLoop_isSome_iff _ _
  · intro params hok r p hmem hc huniq
    rw [WebRouter.match_dynamic_route] at hok
    simp only [if_neg hne] at hok
    exact matchLoop_alookup_capture _ _ _ _ _ hok hmem hc huniq

/-- Witness for C2 at the concrete pattern `/users/:id` and path `/users/42`. -/
theorem C2_dynamic_route_matching_witness :
    (WebRouter.match_dynamic_route "/users/42" "/users/:id").isSome = true :=
  (C2_dynamic_route_matching.1 "/users/42" "/users/:id" (by decide)).1.mpr (by decide)

/-- When every entry of the scan either fails to match or lacks the request method,
the dynamic loop falls through to 404 Not Found. -/
theorem dynamicLoop_notFound (routes : Routes) (request : Request)
    (h : ∀ pr ∈ routes, (WebRouter.match_dynamic_route request.path pr.1).isSome = true →
        alookup pr.2 request.method.to_string = none) :
    dynamicLoop routes request = Response.new HttpStatusCode.NotFound "Not Found" := by
  induction routes with
  | nil => rfl
  | cons hd rest ih =>
      obtain ⟨route_path, method_map⟩ := hd
      cases hm : WebRouter.match_dynamic_route request.path route_path with
      | none =>
          simp only [dynamicLoop, hm]
          exact ih (fun pr hpr => h pr (List.mem_cons_of_mem _ hpr))
      | some params =>
          have hnone := h (route_path, method_map) (List.mem_cons_self _ _) (by simp [hm])
          simp only [dynamicLoop, hm] at ih ⊢
          rw [hnone]
          exact ih (fun pr hpr => h pr (List.mem_cons_of_mem _ hpr))

/-- C3: a request whose path exactly equals a registered pattern but whose method
has no handler there gets status 405 with body `Method Not Allowed`; a request
whose path matches no pattern exactly or dynamically gets status 404 with body
`Not Found`. -/
theorem C3_405_404_bodies :
    (∀ (router : WebRouter) (request : Request) (path_map : AMap RouteHandler),
        alookup router.routes request.path = some path_map →
        alookup path_map request.method.to_string = none →
        router.handle_request request =
          Response.new HttpStatusCode.MethodNotAllowed "Method Not Allowed" ∧
        (router.handle_request request).status_code.code.snd = 405) ∧
    (∀ (router : WebRouter) (request : Request),
        alookup router.routes request.path = none →
        (∀ pr ∈ router.routes, WebRouter.match_dynamic_route request.path pr.1 = none) →
        router.handle_request request = Response.new HttpStatusCode.NotFound "Not Found" ∧
        (router.handle_request request).status_code.code.snd = 404) := by
  constructor
  · intro router request path_map h1 h2
    have heq : router.handle_request request =
        Response.new HttpStatusCode.MethodNotAllowed "Method Not Allowed" := by
      simp only [WebRouter.handle_request, h1, h2]
      rfl
    exact ⟨heq, by rw [heq]; rfl⟩
  · intro router request h1 h2
    have heq : router.handle_request request =
        Response.new HttpStatusCode.NotFound "Not Found" := by
      simp only [WebRouter.handle_request, h1]
      exact dynamicLoop_notFound router.routes request
        (fun pr hpr hs => absurd hs (by simp [h2 pr hpr]))
    exact ⟨heq, by rw [heq]; rfl⟩

/-- Witness for C3: `POST /search` against a router registering only `GET /search`
gets the 405 response, and `GET /nosuch` gets the 404 response. -/
theorem C3_405_404_bodies_witness :
    WebRouter.handle_request searchRouter
        { Request.default with path := "/search", method := HttpMethod.POST } =
      Response.new HttpStatusCode.MethodNotAllowed "Method Not Allowed" ∧
    WebRouter.handle_request searchRouter (reqGET "/nosuch") =
      Response.new HttpStatusCode.NotFound "Not Found" :=
  ⟨(C3_405_404_bodies.1 searchRouter
      { Request.default with path := "/search", method := HttpMethod.POST }
      [("GET", probeQP)] rfl rfl).1,
   (C3_405_404_bodies.2 searchRouter (reqGET "/nosuch") rfl (by
      intro pr hpr
      simp only [searchRouter, List.mem_singleton] at hpr
      subst hpr
      decide)).1⟩

/-- C4 (amended): exact matching is performed on the raw request path, query suffix
included — a raw-path hit resolves in the exact branch, dispatching when the method
has a handler and answering 405 when it does not. -/
theorem C4_exact_match_amended :
    ∀ (router : WebRouter) (request : Request) (path_map : AMap RouteHandler),
      alookup router.routes request.path = some path_map →
      (∀ h, alookup path_map request.method.to_string = some h →
          router.handle_request request = h (Context.new request)) ∧
      (alookup path_map request.method.to_string = none →
          router.handle_request request =
            Response.new HttpStatusCode.MethodNotAllowed "Method Not Allowed") := by
  intro router request path_map h1
  constructor
  · intro h h2
    simp only [WebRouter.handle_request, h1, h2]
  · intro h2
    simp only [WebRouter.handle_request, h1, h2]
    rfl

/-- Witness for C4 (amended): `GET /search` exact-dispatches to the registered
handler. -/
theorem C4_exact_match_amended_witness :
    WebRouter.handle_request searchRouter (reqGET "/search") =
      probeQP (Context.new (reqGET "/search")) :=
  (C4_exact_match_amended searchRouter (reqGET "/search") [("GET", probeQP)] rfl).1
    probeQP rfl

/-- Counterexample to C4 as stated: for `POST /search?q=rust` the query-stripped
path equals the registered pattern `/search`, which has no POST handler, so the
claim predicts 405 from the exact branch; the router instead misses the exact
lookup on the raw path, falls to the dynamic scan and answers 404. -/
theorem C4_exact_match_counterexample :
    (splitChar "/search?q=rust" '?').headD "" = "/search" ∧
    alookup searchRouter.routes "/search" = some [("GET", probeQP)] ∧
    alookup [("GET", probeQP)] HttpMethod.POST.to_string = none ∧
    WebRouter.handle_request searchRouter
        { Request.default with path := "/search?q=rust", method := HttpMethod.POST } =
      Response.new HttpStatusCode.NotFound "Not Found" ∧
    HttpStatusCode.NotFound.code.snd ≠ 405 :=
  ⟨by decide, rfl, rfl, rfl, by decide⟩

/-- A dynamically matching pattern that lacks the request method is skipped without
affecting the scan result. -/
theorem dynamicLoop_skip (l1 l2 : Routes) (p : String) (mm : AMap RouteHandler)
    (request : Request) (hm : alookup mm request.method.to_string = none) :
    dynamicLoop (l1 ++ (p, mm) :: l2) request = dynamicLoop (l1 ++ l2) request := by
  induction l1 with
  | nil =>
      simp only [List.nil_append]
      cases hmd : WebRouter.match_dynamic_route request.path p with
      | none => simp only [dynamicLoop, hmd]
      | some params => simp only [dynamicLoop, hmd, hm]
  | cons hd rest ih =>
      obtain ⟨q, qm⟩ := hd
      simp only [List.cons_append]
      cases hmd : WebRouter.match_dynamic_route request.path q with
      | none =>
          simp only [dynamicLoop, hmd]
          exact ih
      | some params =>
          cases hq : alookup qm request.method.to_string with
          | none =>
              simp only [dynamicLoop, hmd, hq]
              exact ih
          | some h => simp only [dynamicLoop, hmd, hq]

/-- C5: in the dynamic branch a matching pattern without the request method never
produces a 405 — it is skipped as if absent — and when no pattern both matches and
carries the method the result is 404 Not Found. -/
theorem C5_dynamic_skip_no_405 :
    (∀ (l1 l2 : Routes) (p : String) (mm : AMap RouteHandler) (request : Request),
        alookup (l1 ++ (p, mm) :: l2) request.path = none →
        alookup mm request.method.to_string = none →
        WebRouter.handle_request ⟨l1 ++ (p, mm) :: l2⟩ request =
          WebRouter.handle_request ⟨l1 ++ l2⟩ request) ∧
    (∀ (router : WebRouter) (request : Request),
        alookup router.routes request.path = none →
        (∀ pr ∈ router.routes,
            (WebRouter.match_dynamic_route request.path pr.1).isSome = true →
            alookup pr.2 request.method.to_string = none) →
        router.handle_request request = Response.new HttpStatusCode.NotFound "Not Found" ∧
        (router.handle_request request).status_code.code.snd ≠ 405) := by
  constructor
  · intro l1 l2 p mm request h1 hm
    have hsplit := (alookup_append_none_iff l1 ((p, mm) :: l2) request.path).mp h1
    have hl2 : alookup l2 request.path = none := by
      by_cases hp : p = request.path
      · exfalso
        have := hsplit.2
        simp [alookup, hp] at this
      · have := hsplit.2
        simpa [alookup, hp] using this
    have h1b : alookup (l1 ++ l2) request.path = none :=
      (alookup_append_none_iff l1 l2 request.path).mpr ⟨hsplit.1, hl2⟩
    simp only [WebRouter.handle_request, h1, h1b]
    exact dynamicLoop_skip l1 l2 p mm request hm
  · intro router request h1 h2
    have heq : router.handle_request request =
        Response.new HttpStatusCode.NotFound "Not Found" := by
      simp only [WebRouter.handle_request, h1]
      exact dynamicLoop_notFound router.routes request h2
    exact ⟨heq, by rw [heq]; decide⟩

/-- Witness for C5: `POST /q` against a router whose only pattern `/:a` matches
every one-segment path but registers only GET falls through to 404, not 405. -/
theorem C5_dynamic_skip_no_405_witness :
    WebRouter.handle_request ⟨[("/:a", [("GET", probeQP)])]⟩
        { Request.default with path := "/q", method := HttpMethod.POST } =
      Response.new HttpStatusCode.NotFound "Not Found" :=
  (C5_dynamic_skip_no_405.2 ⟨[("/:a", [("GET", probeQP)])]⟩
      { Request.default with path := "/q", method := HttpMethod.POST } rfl (by
      intro pr hpr
      simp only [List.mem_singleton] at hpr
      subst hpr
      intro _
      rfl)).1

/-- The query loop aborts exactly when some `&`-piece has an empty key. -/
theorem collectQueryParams_none_iff (parts : List String) (acc : AMap String) :
    collectQueryParams parts acc = none ↔
      ∃ part ∈ parts, (splitChar part '=').headD "" = "" := by
  induction parts generalizing acc with
  | nil => simp [collectQueryParams]
  | cons p t ih =>
      simp only [collectQueryParams]
      by_cases h : (splitChar p '=').headD "" = ""
      · rw [if_pos h]
        exact iff_of_true rfl ⟨p, List.mem_cons_self _ _, h⟩
      · rw [if_neg h, ih]
        constructor
        · rintro ⟨part, hm, hp2⟩
          exact ⟨part, List.mem_cons_of_mem _ hm, hp2⟩
        · rintro ⟨part, hm, hp2⟩
          rcases List.mem_cons.mp hm with hpe | hm2
          · exact absurd (hpe ▸ hp2) h
          · exact ⟨part, hm2, hp2⟩

/-- With no empty key, the query loop folds every piece into the map as the first
two `=`-fragments. -/
theorem collectQueryParams_some (parts : List String) (acc : AMap String)
    (h : ∀ part ∈ parts, (splitChar part '=').headD "" ≠ "") :
    collectQueryParams parts acc =
      some (parts.foldl
        (fun m part => ainsert m ((splitChar part '=').headD "")
          (((splitChar part '=').drop 1).headD "")) acc) := by
  induction parts generalizing acc with
  | nil => simp [collectQueryParams]
  | cons p t ih =>
      have hp : (splitChar p '=').headD "" ≠ "" := h p (List.mem_cons_self _ _)
      simp only [collectQueryParams, if_neg hp, List.foldl_cons]
      exact ih _ (fun part hpart => h part (List.mem_cons_of_mem _ hpart))

/-- C6 (amended): on the dynamic path, the portion of the request path between the
first and second `?` is split on `&`; from each piece the first two `=`-fragments
become key and value (text after a second `=` is dropped); an empty key answers
400 Bad Request before the handler runs, and otherwise the pairs populate the
context's query-parameter map verbatim — `/search?q=rust&lang=en` yields
`q = rust, lang = en` and `/search?=bad` yields 400. -/
theorem C6_query_parsing_amended :
    (∀ (route_handler : RouteHandler) (params : AMap String) (request : Request)
        (query : String),
      ((splitChar request.path '?').drop 1).head? = some query →
      (((∃ part ∈ splitChar query '&', (splitChar part '=').headD "" = "") →
          runDynamicHandler route_handler params request =
            Response.new HttpStatusCode.BadRequest "Bad Request") ∧
        ((∀ part ∈ splitChar query '&', (splitChar part '=').headD "" ≠ "") →
          runDynamicHandler route_handler params request =
            route_handler
              { request := request, response := Response.default, params := params,
                query_params :=
                  (splitChar query '&').foldl
                    (fun m part => ainsert m ((splitChar part '=').headD "")
                      (((splitChar part '=').drop 1).headD "")) [] }))) ∧
    WebRouter.handle_request searchRouter (reqGET "/search?q=rust&lang=en") =
      probeQP { request := reqGET "/search?q=rust&lang=en", response := Response.default,
                params := [], query_params := [("q", "rust"), ("lang", "en")] } ∧
    WebRouter.handle_request searchRouter (reqGET "/search?q=rust&lang=en") =
      Response.new HttpStatusCode.OK "q=rust&lang=en" ∧
    WebRouter.handle_request searchRouter (reqGET "/search?=bad") =
      Response.new HttpStatusCode.BadRequest "Bad Request" := by
  refine ⟨?_, rfl, rfl, rfl⟩
  intro route_handler params request query hq
  constructor
  · intro hex
    simp only [runDynamicHandler, hq]
    rw [(collectQueryParams_none_iff _ _).mpr hex]
    rfl
  · intro hall
    simp only [runDynamicHandler, hq]
    rw [collectQueryParams_some _ _ hall]

/-- Witness for C6 (amended) at the 400 case of `/search?=bad`. -/
theorem C6_query_parsing_amended_witness :
    runDynamicHandler probeQP [] (reqGET "/search?=bad") =
      Response.new HttpStatusCode.BadRequest "Bad Request" :=
  (C6_query_parsing_amended.1 probeQP [] (reqGET "/search?=bad") "=bad" rfl).1
    (by decide)

/-- Counterexample to C6 as stated: the piece `a=b=c` is not split once on `=` —
`/search?a=b=c` reaches the handler with query map `a = b`, not `a = b=c`; and for
`/search?x=1?y=2` only the portion `x=1` between the first and second `?` is
parsed, not the whole query suffix. -/
theorem C6_query_parsing_counterexample :
    WebRouter.handle_request searchRouter (reqGET "/search?a=b=c") =
      probeQP { request := reqGET "/search?a=b=c", response := Response.default,
                params := [], query_params := [("a", "b")] } ∧
    (WebRouter.handle_request searchRouter (reqGET "/search?a=b=c")).body = "a=b" ∧
    "a=b" ≠ "a=b=c" ∧
    (WebRouter.handle_request searchRouter (reqGET "/search?x=1?y=2")).body = "x=1" ∧
    "x=1" ≠ "x=1?y=2" :=
  ⟨rfl, rfl, by decide, rfl, by decide⟩

/-- Parsing the empty vector fails with `EmptyRequestError`. -/
theorem RequestNew_nil : Request.new [] = Except.error RequestError.EmptyRequestError :=
  rfl

/-- An empty request line fails with `InvalidRequestLineError`. -/
theorem RequestNew_cons_empty (t : List String) :
    Request.new ("" :: t) = Except.error (RequestError.InvalidRequestLineError "") :=
  rfl

/-- Shape of a successful header read: the pushed lines after the seed are a block
of nonempty lines either terminated by the pushed empty line (break) or running to
the end of the stream (its remainder then empty). -/
theorem readHeaderLines_shape :
    ∀ (s acc : List Char) (vec : List String) (cl : Nat) (v : List String) (cl2 : Nat)
      (rest : List Char),
      readHeaderLines s acc vec cl = Except.ok (v, cl2, rest) →
      ∃ mids, ("" ∉ mids) ∧
        ((v = vec ++ mids ++ [""]) ∨ (v = vec ++ mids ∧ rest = [])) := by
  intro s
  induction s with
  | nil =>
      intro acc vec cl v cl2 rest h
      cases acc with
      | nil =>
          simp only [readHeaderLines, Except.ok.injEq, Prod.mk.injEq] at h
          obtain ⟨hv, _, hrest⟩ := h
          refine ⟨[], by simp, Or.inr ⟨by simp [← hv], hrest.symm⟩⟩
      | cons a as =>
          simp only [readHeaderLines] at h
          cases hcl : clStep (String.mk ((a :: as).reverse)) cl with
          | error e => rw [hcl] at h; simp at h
          | ok cln =>
              rw [hcl] at h
              simp only [Except.ok.injEq, Prod.mk.injEq] at h
              obtain ⟨hv, _, hrest⟩ := h
              refine ⟨[String.mk ((a :: as).reverse)], ?_, Or.inr ⟨by simp [← hv], hrest.symm⟩⟩
              simp only [List.mem_singleton]
              intro he
              have h2 : (a :: as).reverse = [] := (congrArg String.data he).symm
              simp at h2
  | cons c cs ih =>
      intro acc vec cl v cl2 rest h
      simp only [readHeaderLines] at h
      by_cases hc : c = '\n'
      · rw [if_pos hc] at h
        cases hcl : clStep (lineFromAcc acc) cl with
        | error e => rw [hcl] at h; simp at h
        | ok cln =>
            rw [hcl] at h
            dsimp only at h
            by_cases hline : lineFromAcc acc = ""
            · rw [if_pos hline] at h
              simp only [Except.ok.injEq, Prod.mk.injEq] at h
              obtain ⟨hv, _, _⟩ := h
              refine ⟨[], by simp, Or.inl ?_⟩
              rw [← hv, hline]
              simp
            · rw [if_neg hline] at h
              obtain ⟨mids2, hnm2, hcase2⟩ := ih [] (vec ++ [lineFromAcc acc]) cln v cl2 rest h
              refine ⟨lineFromAcc acc :: mids2, ?_, ?_⟩
              · simp only [List.mem_cons]
                rintro (he | hm)
                · exact hline he.symm
                · exact hnm2 hm
              · rcases hcase2 with h1 | ⟨h1, h2⟩
                · left
                  rw [h1]
                  simp
                · right
                  exact ⟨by rw [h1]; simp, h2⟩
      · rw [if_neg hc] at h
        exact ih (c :: acc) vec cl v cl2 rest h

/-- When every header line is nonblank after trimming, the header scan stops at the
empty terminator and returns the lines after it. -/
theorem headersScan_snd_found (ms rem : List String)
    (h : ∀ l ∈ ms, rustTrim l ≠ "") (hs : AMap String) :
    (headersScan (ms ++ "" :: rem) hs).2 = some rem := by
  induction ms generalizing hs with
  | nil =>
      simp only [List.nil_append, headersScan]
      rw [if_pos (show rustTrim "" = "" from rfl)]
  | cons m t ih =>
      have hm : rustTrim m ≠ "" := h m (List.mem_cons_self _ _)
      have ih2 := fun hs2 => ih (fun l hl => h l (List.mem_cons_of_mem _ hl)) hs2
      simp only [List.cons_append, headersScan]
      rw [if_neg hm]
      cases hsp : (splitn2Colon m).map rustTrim with
      | nil => exact ih2 hs
      | cons k rest2 =>
          cases rest2 with
          | nil => exact ih2 hs
          | cons w rest3 =>
              cases rest3 with
              | nil => exact ih2 (ainsert hs k w)
              | cons x rest4 => exact ih2 hs

/-- When no line is blank after trimming and there is no terminator, the header
scan runs to the end and reports no terminator. -/
theorem headersScan_snd_eof (ms : List String)
    (h : ∀ l ∈ ms, rustTrim l ≠ "") (hs : AMap String) :
    (headersScan ms hs).2 = none := by
  induction ms generalizing hs with
  | nil => rfl
  | cons m t ih =>
      have hm : rustTrim m ≠ "" := h m (List.mem_cons_self _ _)
      have ih2 := fun hs2 => ih (fun l hl => h l (List.mem_cons_of_mem _ hl)) hs2
      simp only [headersScan]
      rw [if_neg hm]
      cases hsp : (splitn2Colon m).map rustTrim with
      | nil => exact ih2 hs
      | cons k rest2 =>
          cases rest2 with
          | nil => exact ih2 hs
          | cons w rest3 =>
              cases rest3 with
              | nil => exact ih2 (ainsert hs k w)
              | cons x rest4 => exact ih2 hs

/-- The body a successful `Request::new` assigns, as a function of the header
scan of the lines after the request line. -/
theorem RequestNew_body (input : List String) (req : Request)
    (h : Request.new input = Except.ok req) :
    req.body = match (headersScan (input.drop 1) []).2 with
      | some rem => if rem.isEmpty then none
          else some (String.intercalate "\n" rem)
      | none => none := by
  cases input with
  | nil => simp [Request.new] at h
  | cons first t =>
      simp only [Request.new, List.head?] at h
      by_cases hp : (splitWhitespaceRust first).length ≥ 3
      · rw [if_pos hp] at h
        simp only [Except.ok.injEq] at h
        rw [← h]
      · rw [if_neg hp] at h
        simp at h

/-- C7 (amended): for every parsed request whose header block contains no
whitespace-only-but-nonempty line, the body is Some exactly when the last
recorded `Content-Length` is positive, and then it is exactly that many bytes
read after the blank line; with no (or a zero) `Content-Length` the body is None.
(A whitespace-only header line makes `Request::new` treat it as the terminator,
so the body can be Some without any `Content-Length`.) -/
theorem C7_body_content_length_amended :
    ∀ (s : List Char) (v0 : List String) (cl : Nat) (rest : List Char) (req : Request),
      readHeaderLines s [] [] 0 = Except.ok (v0, cl, rest) →
      serverParse s = Except.ok req →
      (∀ line ∈ v0, rustTrim line = "" → line = "") →
      ((req.body.isSome = true ↔ 0 < cl) ∧
        (0 < cl → cl ≤ rest.length ∧ req.body = some (String.mk (rest.take cl)))) := by
  intro s v0 cl rest req hrd hsp hws
  obtain ⟨mids, hnm, hcase⟩ := readHeaderLines_shape s [] [] 0 v0 cl rest hrd
  simp only [List.nil_append] at hcase
  simp only [serverParse, readRequestVector, hrd] at hsp
  by_cases hcl : 0 < cl
  · rw [if_pos hcl] at hsp
    by_cases hlen : cl ≤ rest.length
    · rw [if_pos hlen] at hsp
      dsimp only at hsp
      cases hrn : Request.new (v0 ++ [String.mk (rest.take cl)]) with
      | error e => rw [hrn] at hsp; simp at hsp
      | ok r2 =>
          rw [hrn] at hsp
          simp only [Except.ok.injEq] at hsp
          subst hsp
          have hv0 : v0 = mids ++ [""] := by
            rcases hcase with h1 | ⟨_, h2⟩
            · exact h1
            · subst h2
              simp only [List.length_nil, Nat.le_zero] at hlen
              omega
          cases mids with
          | nil =>
              rw [hv0] at hrn
              simp only [List.nil_append, List.singleton_append] at hrn
              rw [RequestNew_cons_empty] at hrn
              exact Except.noConfusion hrn
          | cons first mids2 =>
              have hbody := RequestNew_body _ _ hrn
              rw [hv0] at hbody
              have hdrop : (((first :: mids2) ++ [""]) ++ [String.mk (rest.take cl)]).drop 1
                  = mids2 ++ "" :: [String.mk (rest.take cl)] := by simp
              rw [hdrop] at hbody
              have hmt : ∀ l ∈ mids2, rustTrim l ≠ "" := by
                intro l hl htrim
                have hle : l = "" := hws l (by
                  rw [hv0]
                  exact List.mem_append_left _ (List.mem_cons_of_mem _ hl)) htrim
                exact hnm (hle ▸ List.mem_cons_of_mem first hl)
              rw [headersScan_snd_found mids2 [String.mk (rest.take cl)] hmt []] at hbody
              have hb2 : r2.body = some (String.mk (rest.take cl)) := hbody.trans rfl
              constructor
              · rw [hb2]
                simp [hcl]
              · intro _
                exact ⟨hlen, hb2⟩
    · rw [if_neg hlen] at hsp
      simp at hsp
  · rw [if_neg hcl] at hsp
    dsimp only at hsp
    cases hrn : Request.new v0 with
    | error e => rw [hrn] at hsp; simp at hsp
    | ok r2 =>
        rw [hrn] at hsp
        simp only [Except.ok.injEq] at hsp
        subst hsp
        have hbody := RequestNew_body _ _ hrn
        have hb2 : r2.body = none := by
          rcases hcase with h1 | ⟨h1, _⟩
          · cases mids with
            | nil =>
                rw [h1] at hrn
                simp only [List.nil_append] at hrn
                rw [RequestNew_cons_empty] at hrn
                exact Except.noConfusion hrn
            | cons first mids2 =>
                rw [h1] at hbody
                have hdrop : ((first :: mids2) ++ [""]).drop 1 = mids2 ++ "" :: [] := by
                  simp
                rw [hdrop] at hbody
                have hmt : ∀ l ∈ mids2, rustTrim l ≠ "" := by
                  intro l hl htrim
                  have hle : l = "" := hws l (by
                    rw [h1]
                    exact List.mem_append_left _ (List.mem_cons_of_mem _ hl)) htrim
                  exact hnm (hle ▸ List.mem_cons_of_mem first hl)
                rw [headersScan_snd_found mids2 [] hmt []] at hbody
                exact hbody.trans rfl
          · cases mids with
            | nil =>
                rw [h1] at hrn
                rw [RequestNew_nil] at hrn
                exact Except.noConfusion hrn
            | cons first mids2 =>
                rw [h1] at hbody
                have hdrop : (first :: mids2).drop 1 = mids2 := rfl
                rw [hdrop] at hbody
                have hmt : ∀ l ∈ mids2, rustTrim l ≠ "" := by
                  intro l hl htrim
                  have hle : l = "" := hws l (by
                    rw [h1]
                    exact List.mem_cons_of_mem _ hl) htrim
                  exact hnm (hle ▸ List.mem_cons_of_mem first hl)
                rw [headersScan_snd_eof mids2 hmt []] at hbody
                exact hbody.trans rfl
        constructor
        · rw [hb2]
          simp [hcl]
        · intro hx
          exact absurd hx hcl

/-- The request parsed from a well-formed stream with `Content-Length: 5` and a
five-byte body. -/
def req5 : Request :=
  { method := .GET, path := "/", version := "HTTP/1.1",
    headers := [("Content-Length", "5")], body := some "hello", cookies := [] }

/-- Witness for C7 (amended) on the stream
`GET / HTTP/1.1\nContent-Length: 5\n\nhello`. -/
theorem C7_body_content_length_amended_witness :
    (req5.body.isSome = true ↔ 0 < 5) ∧
    (0 < 5 → 5 ≤ "hello".data.length ∧ req5.body = some (String.mk ("hello".data.take 5))) :=
  C7_body_content_length_amended "GET / HTTP/1.1\nContent-Length: 5\n\nhello".data
    ["GET / HTTP/1.1", "Content-Length: 5", ""] 5 "hello".data req5 rfl rfl (by decide)

/-- The request parsed from a stream whose second line is a single space. -/
def wsReq : Request :=
  { method := .GET, path := "/", version := "HTTP/1.1", headers := [],
    body := some "", cookies := [] }

/-- Counterexample to C7 as stated: the stream `GET / HTTP/1.1\n \n\n` carries no
`Content-Length` header at all, yet it parses with `body = Some("")` — the
whitespace-only line ends the header scan of `Request::new` early, so the claimed
biconditional fails. -/
theorem C7_body_counterexample :
    serverParse "GET / HTTP/1.1\n \n\n".data = Except.ok wsReq ∧
    alookup wsReq.headers "Content-Length" = none ∧
    wsReq.body = some "" ∧
    wsReq.body ≠ none :=
  ⟨rfl, rfl, rfl, by simp [wsReq]⟩

/-- Append of strings acts as append of their character data. -/
theorem strData_append (a b : String) : (a ++ b).data = a.data ++ b.data := by
  cases a
  cases b
  rfl

/-- The empty string is a right identity for append. -/
theorem strAppend_empty (a : String) : a ++ "" = a := by
  cases a
  exact congrArg String.mk (List.append_nil _)

/-- String append is associative. -/
theorem strAppend_assoc (a b c : String) : a ++ b ++ c = a ++ (b ++ c) := by
  cases a
  cases b
  cases c
  exact congrArg String.mk (List.append_assoc _ _ _)

/-- Concatenation of a list of strings. -/
def strConcat (l : List String) : String := l.foldr (fun a b => a ++ b) ""

/-- The push-style accumulation loops of `Response::to_string` concatenate one
rendered line per entry after the seed. -/
theorem strFoldl_concat {β : Type} (f : β → String) (l : List β) (init : String) :
    l.foldl (fun acc kv => acc ++ f kv) init = init ++ strConcat (l.map f) := by
  induction l generalizing init with
  | nil =>
      simp only [List.foldl_nil, List.map_nil]
      exact (strAppend_empty init).symm
  | cons b t ih =>
      simp only [List.foldl_cons, List.map_cons]
      rw [ih]
      exact strAppend_assoc init (f b) (strConcat (t.map f))

/-- C8: `to_string` emits `HTTP/1.1 <code> <reason>`, then a `Content-Length`
equal to the byte length of the body (whatever the user-set headers contain),
then one line per header and per cookie, a blank line and the body verbatim; in
particular status 200 with body `hi` serializes to a string containing
`HTTP/1.1 200 OK` and `Content-Length: 2` and ending in the blank line plus `hi`. -/
theorem C8_response_serialization :
    (∀ (r : Response),
        r.to_string =
          "HTTP/1.1 " ++ toString r.status_code.code.snd ++ " " ++ r.status_code.code.fst ++
            "\r\nContent-Length: " ++ toString (utf8Len r.body.data) ++ "\r\n" ++
            strConcat (r.headers.map headerLine) ++
            strConcat (r.cookies.map (fun kv => cookieLine kv.snd)) ++
            "\r\n" ++ r.body) ∧
    (Response.new HttpStatusCode.OK "hi").to_string =
      "HTTP/1.1 200 OK\r\nContent-Length: 2\r\n\r\nhi" ∧
    "HTTP/1.1 200 OK".data.isPrefixOf
      ((Response.new HttpStatusCode.OK "hi").to_string).data = true ∧
    "\r\n\r\nhi".data.isSuffixOf
      ((Response.new HttpStatusCode.OK "hi").to_string).data = true ∧
    (∃ pre post,
      (Response.new HttpStatusCode.OK "hi").to_string =
        pre ++ "Content-Length: 2" ++ post) := by
  refine ⟨?_, rfl, by decide, by decide, ⟨"HTTP/1.1 200 OK\r\n", "\r\n\r\nhi", by decide⟩⟩
  intro r
  simp only [Response.to_string]
  rw [strFoldl_concat, strFoldl_concat]

/-- Every UTF-8 character occupies at least one byte. -/
theorem charSize_pos (c : Char) : 1 ≤ charSize c := by
  unfold charSize
  split
  · omega
  · split
    · omega
    · split
      · omega
      · omega

/-- Unfolding `utf8Len` over a cons cell. -/
theorem utf8Len_cons (c : Char) (t : List Char) :
    utf8Len (c :: t) = charSize c + utf8Len t := rfl

/-- Character count never exceeds byte count. -/
theorem length_le_utf8Len (l : List Char) : l.length ≤ utf8Len l := by
  induction l with
  | nil => simp [utf8Len]
  | cons c t ih =>
      have := charSize_pos c
      simp only [List.length_cons, utf8Len_cons]
      omega

/-- For ASCII-only data the byte count equals the character count. -/
theorem utf8Len_of_ascii (l : List Char) (h : ∀ c ∈ l, charSize c = 1) :
    utf8Len l = l.length := by
  induction l with
  | nil => rfl
  | cons c t ih =>
      have hc := h c (List.mem_cons_self _ _)
      simp only [utf8Len_cons, hc, List.length_cons]
      rw [ih (fun x hx => h x (List.mem_cons_of_mem _ hx))]
      omega

/-- A multibyte character makes the byte count strictly exceed the character
count. -/
theorem length_lt_utf8Len (l : List Char) (c0 : Char) (hm : c0 ∈ l)
    (hc : charSize c0 ≠ 1) : l.length < utf8Len l := by
  induction l with
  | nil => cases hm
  | cons c t ih =>
      rcases List.mem_cons.mp hm with he | hmt
      · have h1 := charSize_pos c
        have h2 := length_le_utf8Len t
        have h3 : charSize c ≠ 1 := he ▸ hc
        simp only [List.length_cons, utf8Len_cons]
        omega
      · have h1 := charSize_pos c
        have h2 := ih hmt
        simp only [List.length_cons, utf8Len_cons]
        omega

/-- A path with a nonblank trim has at least one character. -/
theorem data_ne_nil_of_trim (p : String) (h : rustTrim p ≠ "") : p.data ≠ [] := by
  intro hd
  apply h
  obtain ⟨d⟩ := p
  have hd2 : d = [] := hd
  subst hd2
  rfl

/-- C9 (amended): `format_path_by_slashes` never fails on an empty string — an
empty or whitespace-only path is first replaced by `/`, whose trailing slash is
then stripped, giving `Ok("")`.  For ASCII paths with a nonblank trim it strips a
single trailing `/` (also from the bare root) and collapses every `/?` into `?`;
the error branch fires exactly when the path survives the substitution and
contains a multibyte character, because the last character is looked up at index
`byte length - 1` of the character sequence. -/
theorem C9_format_path_amended :
    (∀ path, rustTrim path = "" → format_path_by_slashes path = Except.ok "") ∧
    (∀ path, rustTrim path ≠ "" → (∀ c ∈ path.data, charSize c = 1) →
        path.data.getLast? = some '/' →
        format_path_by_slashes path =
          Except.ok (String.mk (collapseSlashQ path.data.dropLast))) ∧
    (∀ path c, rustTrim path ≠ "" → (∀ c2 ∈ path.data, charSize c2 = 1) →
        path.data.getLast? = some c → c ≠ '/' →
        format_path_by_slashes path = Except.ok (String.mk (collapseSlashQ path.data))) ∧
    (∀ path c0, rustTrim path ≠ "" → c0 ∈ path.data → charSize c0 ≠ 1 →
        format_path_by_slashes path =
          Except.error (WebRouterError.PathFormatError "Failed to format path by slashes")) := by
  refine ⟨?_, ?_, ?_, ?_⟩
  · intro path h
    simp only [format_path_by_slashes]
    rw [if_pos ⟨by rw [h]; rfl, h⟩]
    rfl
  · intro path h hascii hlast
    simp only [format_path_by_slashes]
    rw [if_neg (fun hand => h hand.2)]
    have hg : path.data.get? (utf8Len path.data - 1) = some '/' := by
      rw [utf8Len_of_ascii _ hascii, ← List.getLast?_eq_get?]
      exact hlast
    rw [hg]
    dsimp only
    rw [if_pos rfl]
  · intro path c h hascii hlast hne
    simp only [format_path_by_slashes]
    rw [if_neg (fun hand => h hand.2)]
    have hg : path.data.get? (utf8Len path.data - 1) = some c := by
      rw [utf8Len_of_ascii _ hascii, ← List.getLast?_eq_get?]
      exact hlast
    rw [hg]
    dsimp only
    rw [if_neg hne]
  · intro path c0 h hm hsz
    simp only [format_path_by_slashes]
    rw [if_neg (fun hand => h hand.2)]
    have hlt : path.data.length < utf8Len path.data := length_lt_utf8Len _ c0 hm hsz
    have hg : path.data.get? (utf8Len path.data - 1) = none := by
      apply List.get?_eq_none.mpr
      omega
    rw [hg]

/-- Witness for C9 (amended): the documented example `/menu/items/` normalizes to
`/menu/items`. -/
theorem C9_format_path_amended_witness :
    format_path_by_slashes "/menu/items/" = Except.ok "/menu/items" :=
  C9_format_path_amended.2.1 "/menu/items/" (by decide) (by decide) (by decide)

/-- Counterexample to C9 as stated: the empty string does not make the helper
fail — it is substituted by `/`, popped, and returned as `Ok("")`. -/
theorem C9_format_path_counterexample :
    format_path_by_slashes "" = Except.ok "" ∧
    ∀ e, format_path_by_slashes "" ≠ Except.error e := by
  refine ⟨rfl, ?_⟩
  intro e h
  exact Except.noConfusion (show Except.ok "" = Except.error e from h)

/-- C10: `ThreadPool::execute` reports an error exactly when the sender has been
taken during teardown; with the sender present it returns Ok even when the
channel send fails because every worker is gone — that send error is discarded. -/
theorem C10_execute_err_only_when_sender_taken :
    (∀ (α : Type) (pool : ThreadPool α) (f : α),
        (∃ e, pool.execute f = Except.error e) ↔ pool.sender = none) ∧
    (∀ (α : Type) (pool : ThreadPool α) (f : α) (ch : JobChannel α),
        pool.sender = some ch → ch.receiverAlive = false →
        pool.execute f = Except.ok { sender := some ch }) ∧
    (∀ (α : Type) (pool : ThreadPool α) (f : α),
        pool.dropSender.execute f =
          Except.error (ThreadPoolError.SendError "Sender is not innitialized")) := by
  refine ⟨?_, ?_, ?_⟩
  · intro α pool f
    constructor
    · rintro ⟨e, he⟩
      cases hs : pool.sender with
      | none => rfl
      | some ch => simp [ThreadPool.execute, hs] at he
    · intro hs
      exact ⟨ThreadPoolError.SendError "Sender is not innitialized",
        by simp [ThreadPool.execute, hs]⟩
  · intro α pool f ch h1 h2
    simp [ThreadPool.execute, h1, JobChannel.send, h2]
  · intro α pool f
    rfl

/-- Witness for C10: a pool whose channel has lost all receivers still answers Ok
to a submission, leaving the queue unchanged. -/
theorem C10_execute_err_only_when_sender_taken_witness :
    ThreadPool.execute ⟨some ⟨false, ([] : List Nat)⟩⟩ 7 =
      Except.ok ⟨some ⟨false, []⟩⟩ :=
  C10_execute_err_only_when_sender_taken.2.1 Nat ⟨some ⟨false, []⟩⟩ 7 ⟨false, []⟩ rfl rfl
